import Mathlib

/-!
Verification of the `dunc` build helper (`src/dunc/api.py`).

The embedding models POSIX-style paths as a flag (absolute or not) plus a
list of components, the filesystem as an association list from paths to
nodes (regular file, directory, or symbolic link), and the relevant
`os` / `os.path` / `shutil` / `glob` primitives used by the code.  Stateful
operations return the (possibly partially) updated filesystem together with
an optional error, mirroring the fact that a Python exception leaves the
already-performed side effects in place.

The descriptor language handled by `extract_function` is modelled as a small
statement/expression syntax with exactly the features the claims exercise:
function definitions (possibly nested), assignments, imports, and
expression statements whose expressions are constants or name references.
`ast.walk` is a breadth-first traversal, modelled by `bfs` below.
-/

/-- A path: `absolute` tells whether it starts with a separator, and
`components` are the non-empty path segments.  `⟨false, []⟩` is the empty
string, `⟨true, []⟩` is the filesystem root. -/
structure PPath where
  absolute : Bool
  components : List String
deriving DecidableEq, Repr

/-- `os.path.join a b` for a single pair: an absolute second argument
discards the first. -/
def pjoin (a b : PPath) : PPath :=
  if b.absolute then b else ⟨a.absolute, a.components ++ b.components⟩

/-- `os.path.isabs`. -/
def pisabs (p : PPath) : Bool := p.absolute

/-- `os.path.dirname`: drop the last component. -/
def dirname (p : PPath) : PPath := ⟨p.absolute, p.components.dropLast⟩

/-- Python truthiness of a path string: only the empty string is falsy. -/
def ptruthy (p : PPath) : Bool := p.absolute || !p.components.isEmpty

/-- Length of the longest common prefix of two component lists. -/
def commonLen : List String → List String → Nat
  | a :: as, b :: bs => if a == b then 1 + commonLen as bs else 0
  | _, _ => 0

/-- `os.path.relpath p start` for two paths interpreted against a common
base: climb out of the non-shared part of `start` with `..` segments, then
descend into the non-shared part of `p`.  The result is never absolute;
`.` is returned when the paths coincide (as in `posixpath.relpath`). -/
def relpath (p start : PPath) : PPath :=
  let k := commonLen p.components start.components
  let comps := List.replicate (start.components.length - k) ".." ++ p.components.drop k
  ⟨false, if comps.isEmpty then ["."] else comps⟩

/-- A filesystem node: a regular file (abstract content plus POSIX mode
bits), a directory (modes of directories are not modelled), or a symbolic
link storing its target string. -/
inductive Node where
  | file (content : Nat) (mode : Nat)
  | dir
  | symlink (target : PPath)
deriving DecidableEq, Repr

/-- The filesystem: an association list from paths to nodes; the first
binding for a path wins. -/
abbrev FS := List (PPath × Node)

/-- Look up the node stored at a path (no symlink resolution). -/
def FS.get (fs : FS) (p : PPath) : Option Node :=
  (fs.find? (fun e => e.1 == p)).map (·.2)

/-- Store a node at a path, dropping any previous binding. -/
def FS.set (fs : FS) (p : PPath) (v : Node) : FS :=
  (p, v) :: fs.filter (fun e => !(e.1 == p))

/-- Delete the binding at a path (`os.remove` on an existing non-directory). -/
def FS.del (fs : FS) (p : PPath) : FS :=
  fs.filter (fun e => !(e.1 == p))

/-- Resolve symbolic links with explicit fuel.  A relative link target is
interpreted against the directory containing the link, as POSIX does.  The
empty relative path (the empty string) never names an existing object. -/
def resolveFuel : Nat → FS → PPath → Option (PPath × Node)
  | 0, _, _ => none
  | n + 1, fs, p =>
    if !p.absolute && p.components.isEmpty then none
    else
      match fs.get p with
      | none => none
      | some (Node.symlink t) =>
          resolveFuel n fs (if t.absolute then t else pjoin (dirname p) t)
      | some nd => some (p, nd)

/-- Resolve a path, following symlinks (fuel bounded by the store size). -/
def resolve (fs : FS) (p : PPath) : Option (PPath × Node) :=
  resolveFuel (fs.length + 1) fs p

/-- `os.path.exists` (follows symlinks; false on a broken link). -/
def pexists (fs : FS) (p : PPath) : Bool := (resolve fs p).isSome

/-- `os.path.isfile` (follows symlinks). -/
def pisfile (fs : FS) (p : PPath) : Bool :=
  match resolve fs p with
  | some (_, Node.file _ _) => true
  | _ => false

/-- `os.stat(p).st_mode` restricted to regular files (the only use the code
makes of it). -/
def statMode (fs : FS) (p : PPath) : Option Nat :=
  match resolve fs p with
  | some (_, Node.file _ m) => some m
  | _ => none

/-- The errors of the program and of the Python primitives it calls.
`rootNotFound`, `notBuildEnv`, `missingProjectFile`, `rezBuildEnvNotSet`
and `noInstallFunc` are the `DunkError` cases raised by the code;
`noFunction` is the `ValueError` raised by `extract_function`; `pathError`
is the PathError of the specification, which the code never raises;
`nameError`, `keyError`, `notCallable`, `sameFileError` and `ioError` stand
for the corresponding Python runtime exceptions. -/
inductive Err where
  | rootNotFound (root : PPath)
  | pathError
  | noFunction (name : String)
  | notBuildEnv
  | missingProjectFile
  | rezBuildEnvNotSet
  | noInstallFunc
  | nameError (name : String)
  | keyError
  | notCallable
  | sameFileError
  | ioError
deriving DecidableEq, Repr

/-- `os.remove`: fails on a missing path or a directory, removes the stored
binding otherwise (it does not follow a symlink at the removed path). -/
def removeOp (fs : FS) (p : PPath) : FS × Option Err :=
  match fs.get p with
  | none => (fs, some Err.ioError)
  | some Node.dir => (fs, some Err.ioError)
  | some _ => (FS.del fs p, none)

/-- `os.symlink target link`: fails if anything is stored at `link`. -/
def symlinkOp (fs : FS) (target link : PPath) : FS × Option Err :=
  match fs.get link with
  | some _ => (fs, some Err.ioError)
  | none => (FS.set fs link (Node.symlink target), none)

/-- `shutil._samefile`: both paths resolve and they resolve to the same
object (path identity stands in for inode identity). -/
def samefile (fs : FS) (a b : PPath) : Bool :=
  match resolve fs a, resolve fs b with
  | some (pa, _), some (pb, _) => pa == pb
  | _, _ => false

/-- `shutil.copy2 src dst`: raises `SameFileError` when source and
destination are the same object, fails when the source is not a readable
regular file, and otherwise writes the source content and permission bits
at the destination (writing through an existing symlink there). -/
def copy2Op (fs : FS) (src dst : PPath) : FS × Option Err :=
  if samefile fs src dst then (fs, some Err.sameFileError)
  else
    match resolve fs src with
    | some (_, Node.file c m) =>
        let wdst := match resolve fs dst with
          | some (q, _) => q
          | none => dst
        (FS.set fs wdst (Node.file c m), none)
    | _ => (fs, some Err.ioError)

/-- The ancestor paths of `p` (excluding the empty relative path). -/
def ancestors (p : PPath) : List PPath :=
  ((List.range (p.components.length + 1)).map
    (fun k => PPath.mk p.absolute (p.components.take k))).filter ptruthy

/-- `os.makedirs`: create a directory at every missing ancestor. -/
def makedirsOp (fs : FS) (p : PPath) : FS :=
  (ancestors p).foldl
    (fun f q => match f.get q with
      | none => FS.set f q Node.dir
      | some _ => f) fs

/-- `os.chmod` (follows symlinks); modelled for regular files only. -/
def chmodOp (fs : FS) (p : PPath) (m : Nat) : FS × Option Err :=
  match resolve fs p with
  | some (q, Node.file c _) => (FS.set fs q (Node.file c m), none)
  | _ => (fs, some Err.ioError)

/-- The build-environment configuration read through `os.environ`:
`rezBuildEnv` and `rezBuildInstall` are the raw environment variables
(`none` when unset), the three paths are the values of
`REZ_BUILD_PROJECT_FILE`, `REZ_BUILD_SOURCE_PATH` and
`REZ_BUILD_INSTALL_PATH`. -/
structure Config where
  rezBuildEnv : Option String
  rezBuildInstall : Option String
  projectFile : PPath
  sourcePath : PPath
  installPath : PPath
deriving DecidableEq, Repr

/-- Python truthiness of `os.environ.get(...)`: unset or empty is falsy. -/
def strTruthy : Option String → Bool
  | none => false
  | some s => !(s == "")

/-- `is_build()`. -/
def is_build (cfg : Config) : Bool := strTruthy cfg.rezBuildEnv

/-- `is_install()`. -/
def is_install (cfg : Config) : Bool := cfg.rezBuildInstall == some "1"

/-- `find_files(pattern, recursive, root)`.  `globFn` stands for
`glob.glob`: it receives the joined pattern and the recursive flag and
returns the matched paths.  Mirrors the source: default the root to the
source path, anchor a truthy non-absolute root under the source path,
fail when the root does not exist, then keep only regular files and pair
each with its path relative to the root. -/
def find_files (cfg : Config) (fs : FS) (globFn : PPath → Bool → List PPath)
    (pattern : PPath) (recursive : Bool) (root : Option PPath) :
    Except Err (List (PPath × PPath)) :=
  let root := match root with
    | none => cfg.sourcePath
    | some r => r
  let root := if ptruthy root && !pisabs root then pjoin cfg.sourcePath root else root
  if !pexists fs root then Except.error (Err.rootNotFound root)
  else
    let globMatches := globFn (pjoin root pattern) recursive
    let files_only := globMatches.filter (fun m => pisfile fs m)
    Except.ok (files_only.map (fun m => (root, relpath m root)))

/-- `_copy_file(src, dst, executable, symlink)`: ensure the destination
directory exists; on Windows just `copy2`; otherwise remove an existing
destination, then symlink or copy, then (when `executable`) OR the three
execute bits into the mode found at the destination. -/
def copy_file (windows : Bool) (fs : FS) (src dst : PPath)
    (executable symlinkF : Bool) : FS × Option Err :=
  let fs := if pexists fs (dirname dst) then fs else makedirsOp fs (dirname dst)
  if windows then
    copy2Op fs src dst
  else
    match (if pexists fs dst then removeOp fs dst else (fs, none)) with
    | (fs1, some e) => (fs1, some e)
    | (fs1, none) =>
      match (if symlinkF then symlinkOp fs1 src dst else copy2Op fs1 src dst) with
      | (fs2, some e) => (fs2, some e)
      | (fs2, none) =>
        if executable then
          match statMode fs2 dst with
          | none => (fs2, some Err.ioError)
          | some m => chmodOp fs2 dst (Nat.lor m 0o111)
        else (fs2, none)

/-- The `for source_path, rel in files` loop of `install_files`. -/
def installLoop (windows : Bool) (ip : PPath) (symlinkF executable : Bool)
    (fs : FS) : List (PPath × PPath) → FS × Option Err
  | [] => (fs, none)
  | (source_path, rel) :: rest =>
    let src := pjoin source_path rel
    let dst := pjoin ip rel
    match copy_file windows fs src dst executable symlinkF with
    | (fs1, none) => installLoop windows ip symlinkF executable fs1 rest
    | (fs1, some e) => (fs1, some e)

/-- `install_files(files, install_path, symlink, executable)`: default the
install path to the configured one, anchor a truthy non-absolute install
path under the configured one, then copy each entry in sequence, stopping
at the first failure. -/
def install_files (windows : Bool) (cfg : Config) (fs : FS)
    (files : List (PPath × PPath)) (install_path : Option PPath)
    (symlinkF executable : Bool) : FS × Option Err :=
  let ip := match install_path with
    | none => cfg.installPath
    | some p => p
  let ip := if ptruthy ip && !pisabs ip then pjoin cfg.installPath ip else ip
  installLoop windows ip symlinkF executable fs files

/-- Expressions of the descriptor language, as far as the claims need them:
an opaque constant or a name reference. -/
inductive Expr where
  | const
  | name (s : String)
deriving DecidableEq, Repr

/-- Statements of the descriptor language: a function definition (whose
body may itself contain definitions), an assignment, an import, or a bare
expression statement. -/
inductive Stmt where
  | funcDef (name : String) (body : List Stmt)
  | assign (target : String) (value : Expr)
  | importStmt (module : String)
  | exprStmt (value : Expr)

/-- The child statements of a statement, as `ast.iter_child_nodes` yields
them: only a function definition has statement children. -/
def Stmt.children : Stmt → List Stmt
  | Stmt.funcDef _ body => body
  | _ => []

/-- Total number of statements in a forest, nested bodies included. -/
def sizeL : List Stmt → Nat
  | [] => 0
  | Stmt.funcDef _ body :: r => 1 + sizeL body + sizeL r
  | Stmt.assign _ _ :: r => 1 + sizeL r
  | Stmt.importStmt _ :: r => 1 + sizeL r
  | Stmt.exprStmt _ :: r => 1 + sizeL r

/-- Breadth-first traversal with explicit fuel: each step yields the head
of the queue and appends its children.  One unit of fuel is consumed per
statement, and a traversal visits every statement exactly once, so
`sizeL q` units are exactly enough. -/
def bfsFuel : Nat → List Stmt → List Stmt
  | 0, _ => []
  | _, [] => []
  | n + 1, s :: rest => s :: bfsFuel n (rest ++ s.children)

/-- `ast.walk`: breadth-first traversal of a statement forest (the queue is
seeded with the top-level statements; each popped node is yielded and its
children appended; the fuel `sizeL q` is exact, see `bfs_cons`). -/
def bfs (q : List Stmt) : List Stmt := bfsFuel (sizeL q) q

/-- Does this statement match `isinstance(node, ast.FunctionDef) and
node.name == function_name`? -/
def isNamedDef (function_name : String) : Stmt → Bool
  | Stmt.funcDef n _ => n == function_name
  | _ => false

/-- Runtime values: a function object (carrying its name and body) or an
opaque other object. -/
inductive PyVal where
  | func (name : String) (body : List Stmt)
  | obj

/-- A namespace (a Python dict from names to values). -/
abbrev NS := List (String × PyVal)

/-- Dictionary lookup. -/
def nsLookup (ns : NS) (x : String) : Option PyVal :=
  (ns.find? (fun e => e.1 == x)).map (·.2)

/-- Dictionary update. -/
def nsSet (ns : NS) (x : String) (v : PyVal) : NS :=
  (x, v) :: ns.filter (fun e => !(e.1 == x))

/-- Python truthiness of a value.  Function objects are always truthy;
the opaque values the model uses are truthy as well. -/
def pyTruthy : PyVal → Bool
  | PyVal.func _ _ => true
  | PyVal.obj => true

/-- Evaluate an expression: a name is looked up in the local namespace,
then the global namespace, then the builtins; an unbound name raises
`NameError`. -/
def evalExpr (globals locals : NS) (builtins : List String) :
    Expr → Except Err PyVal
  | Expr.const => Except.ok PyVal.obj
  | Expr.name x =>
    match nsLookup locals x with
    | some v => Except.ok v
    | none =>
      match nsLookup globals x with
      | some v => Except.ok v
      | none =>
        if builtins.contains x then Except.ok PyVal.obj
        else Except.error (Err.nameError x)

/-- Execute a statement list with separate global and local namespaces,
returning the final local namespace.  (Python decides locality of assigned
names at compile time; this dynamic model agrees with it on the statement
shapes the claims use.) -/
def execStmts (globals : NS) (locals : NS) (builtins : List String) :
    List Stmt → Except Err NS
  | [] => Except.ok locals
  | Stmt.funcDef nm bd :: rest =>
      execStmts globals (nsSet locals nm (PyVal.func nm bd)) builtins rest
  | Stmt.assign t e :: rest =>
      match evalExpr globals locals builtins e with
      | Except.error er => Except.error er
      | Except.ok v => execStmts globals (nsSet locals t v) builtins rest
  | Stmt.importStmt nm :: rest =>
      execStmts globals (nsSet locals nm PyVal.obj) builtins rest
  | Stmt.exprStmt e :: rest =>
      match evalExpr globals locals builtins e with
      | Except.error er => Except.error er
      | Except.ok _ => execStmts globals locals builtins rest

/-- `exec(code, ns)` at module level: globals and locals are the same
dict, which the lookup chain of `execStmts` reproduces with an empty
separate globals namespace. -/
def execModule (ns : NS) (builtins : List String) (stmts : List Stmt) :
    Except Err NS :=
  execStmts [] ns builtins stmts

/-- The name/body of a statement when it is a function definition. -/
def stmtFuncParts : Stmt → Option (String × List Stmt)
  | Stmt.funcDef n b => some (n, b)
  | _ => none

/-- The value `extract_function` returns: the function object found in
`function_globals`, together with that namespace (a Python function keeps
a reference to the globals dict it was executed in). -/
structure Handle where
  globalsNS : NS
  fn : PyVal

/-- `extract_function(project_file, function_name, optional)` applied to
the parsed descriptor `module`: scan `ast.walk` (breadth-first) for the
first `FunctionDef` named `function_name`; when none is found, return
`none` if `optional` and raise `ValueError` otherwise; when one is found,
unparse just that definition, execute it in a brand-new empty namespace,
and return the function object stored under `function_name` there. -/
def extract_function (module : List Stmt) (function_name : String)
    (optional : Bool) : Except Err (Option Handle) :=
  match (bfs module).find? (isNamedDef function_name) with
  | none =>
    if optional then Except.ok none
    else Except.error (Err.noFunction function_name)
  | some s =>
    match stmtFuncParts s with
    | none => Except.error Err.keyError
    | some (nm, body) =>
      match execModule [] [] [Stmt.funcDef nm body] with
      | Except.error e => Except.error e
      | Except.ok g =>
        match nsLookup g function_name with
        | none => Except.error Err.keyError
        | some v => Except.ok (Handle.mk g v)

/-- Call an extracted routine with no arguments: run its body with the
namespace it is bound to as globals and a fresh empty locals dict. -/
def callHandle (builtins : List String) (h : Handle) : Except Err NS :=
  match h.fn with
  | PyVal.func _ body => execStmts h.globalsNS [] builtins body
  | PyVal.obj => Except.error Err.notCallable

/-- The observable orchestration events of `execute`. -/
inductive Event where
  | extractBuild (optional : Bool)
  | invokeBuild
  | extractInstall (optional : Bool)
  | invokeInstall
deriving DecidableEq, Repr

/-- Is this an install-phase event? -/
def Event.isInstallEv : Event → Bool
  | Event.extractInstall _ => true
  | Event.invokeInstall => true
  | _ => false

/-- Is this a build-phase event? -/
def Event.isBuildEv : Event → Bool
  | Event.extractBuild _ => true
  | Event.invokeBuild => true
  | _ => false

/-- The `if is_install():` suite at the end of `execute`, returning the
install-phase events and the error, if any.  The `Except.ok none` arm and
the falsy-function arm model `if not install_func: raise DunkError(...)`
(`None` is falsy; a function object is checked with `pyTruthy`). -/
def installPhase (cfg : Config) (descriptor : List Stmt)
    (builtins : List String) : List Event × Option Err :=
  if is_install cfg then
    match extract_function descriptor "install" false with
    | Except.error e => ([Event.extractInstall false], some e)
    | Except.ok none => ([Event.extractInstall false], some Err.noInstallFunc)
    | Except.ok (some h) =>
      if pyTruthy h.fn then
        match callHandle builtins h with
        | Except.error e => ([Event.extractInstall false, Event.invokeInstall], some e)
        | Except.ok _ => ([Event.extractInstall false, Event.invokeInstall], none)
      else ([Event.extractInstall false], some Err.noInstallFunc)
  else ([], none)

/-- `execute()` on the parsed descriptor of the configured project file:
guard that the process is in a build environment, that the project file
exists, and (again) that `REZ_BUILD_ENV` is set; extract `build` with
`optional=True` and invoke it when truthy; then run the install suite.
Returns the orchestration trace together with the error, if any. -/
def execute (cfg : Config) (fs : FS) (descriptor : List Stmt)
    (builtins : List String) : List Event × Option Err :=
  if !is_build cfg then ([], some Err.notBuildEnv)
  else if !pexists fs cfg.projectFile then ([], some Err.missingProjectFile)
  else if !strTruthy cfg.rezBuildEnv then ([], some Err.rezBuildEnvNotSet)
  else
    match extract_function descriptor "build" true with
    | Except.error e => ([Event.extractBuild true], some e)
    | Except.ok none =>
        (Event.extractBuild true :: (installPhase cfg descriptor builtins).1,
          (installPhase cfg descriptor builtins).2)
    | Except.ok (some h) =>
      if pyTruthy h.fn then
        match callHandle builtins h with
        | Except.error e => ([Event.extractBuild true, Event.invokeBuild], some e)
        | Except.ok _ =>
          (Event.extractBuild true :: Event.invokeBuild
              :: (installPhase cfg descriptor builtins).1,
            (installPhase cfg descriptor builtins).2)
      else
        (Event.extractBuild true :: (installPhase cfg descriptor builtins).1,
          (installPhase cfg descriptor builtins).2)

theorem sizeL_append (a b : List Stmt) : sizeL (a ++ b) = sizeL a + sizeL b := by
  induction a with
  | nil => simp [sizeL]
  | cons x r ih => cases x <;> simp [sizeL, ih] <;> omega

theorem bfs_cons (s : Stmt) (rest : List Stmt) :
    bfs (s :: rest) = s :: bfs (rest ++ s.children) := by
  unfold bfs
  have h : sizeL (s :: rest) = sizeL (rest ++ s.children) + 1 := by
    rw [sizeL_append]
    cases s <;> simp [sizeL, Stmt.children] <;> omega
  rw [h]
  rfl

theorem bfs_find?_aux (p : Stmt → Bool) :
    ∀ (n : Nat) (q : List Stmt), sizeL q ≤ n →
      (q.find? p).isSome → (bfs q).find? p = q.find? p := by
  intro n
  induction n with
  | zero =>
    intro q hq h
    cases q with
    | nil => simp [List.find?] at h
    | cons s rest => cases s <;> simp [sizeL] at hq
  | succ n ih =>
    intro q hq h
    cases q with
    | nil => simp [List.find?] at h
    | cons s rest =>
      have hsz : sizeL (rest ++ s.children) ≤ n := by
        rw [sizeL_append]
        cases s <;> simp [sizeL, Stmt.children] at hq ⊢ <;> omega
      rw [bfs_cons]
      cases hp : p s with
      | true =>
        rw [List.find?_cons_of_pos _ hp, List.find?_cons_of_pos _ hp]
      | false =>
        have hps : ¬ p s = true := by simp [hp]
        rw [List.find?_cons_of_neg _ hps] at h ⊢
        rw [List.find?_cons_of_neg _ hps]
        have h2 : ((rest ++ s.children).find? p).isSome := by
          rw [List.find?_append]
          cases hfr : rest.find? p with
          | none => rw [hfr] at h; simp at h
          | some a => simp [hfr]
        rw [ih _ hsz h2, List.find?_append]
        cases hfr : rest.find? p with
        | none => rw [hfr] at h; simp at h
        | some a => simp

theorem bfs_find?_of_top (p : Stmt → Bool) :
    ∀ q : List Stmt, (q.find? p).isSome → (bfs q).find? p = q.find? p :=
  fun q => bfs_find?_aux p (sizeL q) q (Nat.le_refl _)

theorem bfs_nested_target :
    bfs [Stmt.funcDef "outer" [Stmt.funcDef "target" [Stmt.exprStmt Expr.const]]]
      = [Stmt.funcDef "outer" [Stmt.funcDef "target" [Stmt.exprStmt Expr.const]],
         Stmt.funcDef "target" [Stmt.exprStmt Expr.const],
         Stmt.exprStmt Expr.const] := by
  simp [bfs, sizeL, bfsFuel, Stmt.children]

/-- Claim C2, counterexample: a descriptor whose only definition named
`target` is nested inside another function.  There is no top-level
definition named `target` (first conjunct), so by the claim the extraction
with `optional = false` would have to fail; the code nevertheless finds and
extracts the nested definition (second conjunct), because `ast.walk`
traverses the whole tree. -/
theorem claim_C2_counterexample :
    (List.find? (isNamedDef "target")
      [Stmt.funcDef "outer" [Stmt.funcDef "target" [Stmt.exprStmt Expr.const]]] = none)
    ∧ extract_function
        [Stmt.funcDef "outer" [Stmt.funcDef "target" [Stmt.exprStmt Expr.const]]]
        "target" false
      = Except.ok (some (Handle.mk
          [("target", PyVal.func "target" [Stmt.exprStmt Expr.const])]
          (PyVal.func "target" [Stmt.exprStmt Expr.const]))) := by
  constructor
  · simp [List.find?, isNamedDef]
  · rw [extract_function.eq_def, bfs_nested_target]
    simp [isNamedDef, List.find?, stmtFuncParts, execModule, execStmts,
      nsSet, nsLookup]

/-- Claim C2, amended: `extract_function` walks all function definitions in
breadth-first order, so every top-level definition is scanned, in file
order, before any nested one; whenever some top-level definition bears the
requested name, the selected definition is the first top-level one in file
order (later definitions with the same name are never selected).  When only
nested definitions bear the name, however, a nested definition is selected
(see the counterexample). -/
theorem claim_C2_amended (module : List Stmt) (n : String) (optional : Bool)
    (nm : String) (body : List Stmt)
    (h : module.find? (isNamedDef n) = some (Stmt.funcDef nm body)) :
    extract_function module n optional =
      Except.ok (some (Handle.mk [(nm, PyVal.func nm body)] (PyVal.func nm body))) := by
  have hnm : nm = n := by
    have := List.find?_some h
    simpa [isNamedDef] using this
  subst hnm
  have hsome : (module.find? (isNamedDef nm)).isSome := by rw [h]; rfl
  unfold extract_function
  rw [bfs_find?_of_top _ _ hsome, h]
  simp [stmtFuncParts, execModule, execStmts, nsSet, nsLookup, List.find?]

/-- Witness for the amended C2: a descriptor with two top-level definitions
named `f`; the first one in file order is the one extracted. -/
theorem claim_C2_amended_witness :
    extract_function
      [Stmt.funcDef "f" [Stmt.exprStmt Expr.const], Stmt.funcDef "f" []] "f" false
    = Except.ok (some (Handle.mk
        [("f", PyVal.func "f" [Stmt.exprStmt Expr.const])]
        (PyVal.func "f" [Stmt.exprStmt Expr.const]))) :=
  claim_C2_amended _ _ _ _ _ (by simp [List.find?, isNamedDef])

/-- Claim C3: when the descriptor contains no definition (top-level or
nested) of the requested name, extraction with `optional = true` returns
the absent value and raises nothing, and extraction with
`optional = false` raises the error naming the missing routine (the
`ValueError` of the code, standing for the NotFoundError of the spec). -/
theorem claim_C3 (module : List Stmt) (n : String)
    (h : ∀ s ∈ bfs module, isNamedDef n s = false) :
    extract_function module n true = Except.ok none
    ∧ extract_function module n false = Except.error (Err.noFunction n) := by
  have hn : (bfs module).find? (isNamedDef n) = none := by
    rw [List.find?_eq_none]
    intro x hx
    simp [h x hx]
  constructor <;> simp [extract_function, hn]

/-- Witness for C3 at a descriptor consisting of one assignment. -/
theorem claim_C3_witness :
    extract_function [Stmt.assign "a" Expr.const] "install" true = Except.ok none
    ∧ extract_function [Stmt.assign "a" Expr.const] "install" false
      = Except.error (Err.noFunction "install") :=
  claim_C3 _ _ (by
    intro s hs
    simp [bfs, sizeL, bfsFuel, Stmt.children] at hs
    subst hs
    rfl)

/-- Claim C4: whatever definition `extract_function` selects, the returned
handle is a function object bound to a brand-new namespace containing only
that function itself; consequently, calling an extracted routine whose body
refers to a name `x` other than its own name — for example any other
module-level name of the descriptor — fails with a NameError for `x`
(provided `x` is not a builtin), no matter what other top-level statements
the descriptor contains. -/
theorem claim_C4 (module : List Stmt) (n x : String) (optional : Bool)
    (h : Handle) (builtins : List String)
    (hx : extract_function module n optional = Except.ok (some h)) :
    (∃ body, h.fn = PyVal.func n body ∧ h.globalsNS = [(n, PyVal.func n body)])
    ∧ (h.fn = PyVal.func n [Stmt.exprStmt (Expr.name x)] → x ≠ n →
        builtins.contains x = false →
        callHandle builtins h = Except.error (Err.nameError x)) := by
  unfold extract_function at hx
  split at hx
  · split at hx <;> simp_all
  · rename_i s hfind
    have hps := List.find?_some hfind
    cases s with
    | funcDef nm bd =>
      have hnm : nm = n := by simpa [isNamedDef] using hps
      subst hnm
      simp only [stmtFuncParts, execModule, execStmts, nsSet, nsLookup,
        List.find?, List.filter, beq_self_eq_true, Option.map] at hx
      simp only [Except.ok.injEq, Option.some.injEq] at hx
      subst hx
      constructor
      · exact ⟨bd, rfl, rfl⟩
      · intro hfn hxn hbi
        simp only [PyVal.func.injEq] at hfn
        obtain ⟨-, rfl⟩ := hfn
        have hxnm : (nm == x) = false := by
          simp [beq_eq_false_iff_ne]
          intro he
          exact hxn he.symm
        have hbi2 : ¬ (x ∈ builtins) := by simpa using hbi
        simp [callHandle, execStmts, evalExpr, nsLookup, List.find?, hxnm, hbi2]
    | assign t v => simp [isNamedDef] at hps
    | importStmt m => simp [isNamedDef] at hps
    | exprStmt v => simp [isNamedDef] at hps

theorem bfs_const_module :
    bfs [Stmt.importStmt "os", Stmt.assign "CONST" Expr.const,
        Stmt.funcDef "f" [Stmt.exprStmt (Expr.name "CONST")]]
      = [Stmt.importStmt "os", Stmt.assign "CONST" Expr.const,
         Stmt.funcDef "f" [Stmt.exprStmt (Expr.name "CONST")],
         Stmt.exprStmt (Expr.name "CONST")] := by
  simp [bfs, sizeL, bfsFuel, Stmt.children]

theorem extract_const_module :
    extract_function
        [Stmt.importStmt "os", Stmt.assign "CONST" Expr.const,
          Stmt.funcDef "f" [Stmt.exprStmt (Expr.name "CONST")]] "f" false
      = Except.ok (some (Handle.mk
          [("f", PyVal.func "f" [Stmt.exprStmt (Expr.name "CONST")])]
          (PyVal.func "f" [Stmt.exprStmt (Expr.name "CONST")]))) := by
  rw [extract_function.eq_def, bfs_const_module]
  simp [isNamedDef, List.find?, stmtFuncParts, execModule, execStmts,
    nsSet, nsLookup]

/-- Witness for C4: a descriptor binding a module-level constant `CONST`
and defining a routine `f` whose body reads `CONST`; the extracted `f`
fails to resolve `CONST` when called. -/
theorem claim_C4_witness :
    callHandle ["print"]
      (Handle.mk [("f", PyVal.func "f" [Stmt.exprStmt (Expr.name "CONST")])]
        (PyVal.func "f" [Stmt.exprStmt (Expr.name "CONST")]))
      = Except.error (Err.nameError "CONST") :=
  (claim_C4
    [Stmt.importStmt "os", Stmt.assign "CONST" Expr.const,
      Stmt.funcDef "f" [Stmt.exprStmt (Expr.name "CONST")]]
    "f" "CONST" false _ ["print"]
    extract_const_module).2
    rfl (by simp) (by simp)

/-- Helper: the entry property for the body of `find_files` at an
arbitrary resolved root `R`. -/
theorem find_files_ok_mem (fs : FS) (g : PPath → Bool → List PPath)
    (pat : PPath) (rcv : Bool) (R : PPath) (res : List (PPath × PPath))
    (h : (if (!pexists fs R) = true then Except.error (Err.rootNotFound R)
          else Except.ok (List.map (fun m => (R, relpath m R))
            (List.filter (fun m => pisfile fs m) (g (pjoin R pat) rcv))))
        = Except.ok res) :
    ∀ e ∈ res, e.2.absolute = false
      ∧ ∃ mtch ∈ g (pjoin e.1 pat) rcv,
          pisfile fs mtch = true ∧ e.2 = relpath mtch e.1 := by
  split at h
  · exact absurd h (by simp)
  · simp only [Except.ok.injEq] at h
    subst h
    intro e he
    rw [List.mem_map] at he
    obtain ⟨mtch, hm, rfl⟩ := he
    rw [List.mem_filter] at hm
    exact ⟨by simp [relpath], mtch, hm.1, hm.2, rfl⟩

/-- Claim C6: whenever `find_files` succeeds, every returned entry comes
from a glob match that is a regular file (directories and other non-file
matches are excluded), and its relative path is the one computed by
`relpath` against the resolved root (the first component of the entry) and
is never absolute. -/
theorem claim_C6 (cfg : Config) (fs : FS) (g : PPath → Bool → List PPath)
    (pat : PPath) (rcv : Bool) (root : Option PPath)
    (res : List (PPath × PPath))
    (h : find_files cfg fs g pat rcv root = Except.ok res) :
    ∀ e ∈ res, e.2.absolute = false
      ∧ ∃ mtch ∈ g (pjoin e.1 pat) rcv,
          pisfile fs mtch = true ∧ e.2 = relpath mtch e.1 := by
  unfold find_files at h
  split at h <;> exact find_files_ok_mem _ _ _ _ _ _ h

/-- Witness for C6: the glob matches contain a regular file and a
directory under root `/s`; only the file is returned and its relative path
is relative. -/
theorem claim_C6_witness :
    ((PPath.mk true ["s"], PPath.mk false ["a.txt"]) : PPath × PPath).2.absolute = false
    ∧ ∃ mtch ∈ (fun (_ : PPath) (_ : Bool) =>
          [PPath.mk true ["s", "a.txt"], PPath.mk true ["s", "d"]])
        (pjoin (PPath.mk true ["s"]) (PPath.mk false ["*.txt"])) true,
        pisfile [((PPath.mk true ["s"]), Node.dir),
          ((PPath.mk true ["s", "a.txt"]), Node.file 1 420),
          ((PPath.mk true ["s", "d"]), Node.dir)] mtch = true
        ∧ (PPath.mk false ["a.txt"]) = relpath mtch (PPath.mk true ["s"]) :=
  claim_C6
    (Config.mk (some "1") none (PPath.mk true ["p"]) (PPath.mk true ["s"])
      (PPath.mk true ["o"]))
    [((PPath.mk true ["s"]), Node.dir),
      ((PPath.mk true ["s", "a.txt"]), Node.file 1 420),
      ((PPath.mk true ["s", "d"]), Node.dir)]
    (fun _ _ => [PPath.mk true ["s", "a.txt"], PPath.mk true ["s", "d"]])
    (PPath.mk false ["*.txt"]) true (some (PPath.mk true ["s"])) _ rfl
    (PPath.mk true ["s"], PPath.mk false ["a.txt"]) (by decide)

/-- Claim C7, counterexample: with source path `/s` (which exists), calling
`find_files` with the explicitly empty relative root is NOT anchored under
the source path: the claim would resolve it to `/s` and succeed, but the
code leaves the falsy empty string alone and fails with the
root-not-found error for the empty path, even though the anchored root
exists. -/
theorem claim_C7_counterexample :
    find_files
      (Config.mk (some "1") none (PPath.mk true ["p"]) (PPath.mk true ["s"])
        (PPath.mk true ["o"]))
      [((PPath.mk true ["s"]), Node.dir)] (fun _ _ => [])
      (PPath.mk false ["x"]) true (some (PPath.mk false []))
      = Except.error (Err.rootNotFound (PPath.mk false []))
    ∧ pexists [((PPath.mk true ["s"]), Node.dir)]
        (pjoin (PPath.mk true ["s"]) (PPath.mk false [])) = true := by
  constructor
  · rfl
  · rfl

/-- Claim C7, amended: an absent root is treated exactly like passing the
configured source path; a NONEMPTY relative root (with an absolute
configured source path) is treated exactly like passing its join under the
source path; an absolute root that does not exist fails with the
root-not-found error and returns no entries; and the empty relative root is
left unanchored and always fails with the root-not-found error for the
empty path (this last case is where the original claim fails). -/
theorem claim_C7_amended :
    (∀ (cfg : Config) (fs : FS) (g : PPath → Bool → List PPath)
        (pat : PPath) (rcv : Bool),
      find_files cfg fs g pat rcv none
        = find_files cfg fs g pat rcv (some cfg.sourcePath))
    ∧ (∀ (cfg : Config) (fs : FS) (g : PPath → Bool → List PPath)
        (pat : PPath) (rcv : Bool) (r : PPath),
        cfg.sourcePath.absolute = true → ptruthy r = true → r.absolute = false →
        find_files cfg fs g pat rcv (some r)
          = find_files cfg fs g pat rcv (some (pjoin cfg.sourcePath r)))
    ∧ (∀ (cfg : Config) (fs : FS) (g : PPath → Bool → List PPath)
        (pat : PPath) (rcv : Bool) (r : PPath),
        r.absolute = true → pexists fs r = false →
        find_files cfg fs g pat rcv (some r)
          = Except.error (Err.rootNotFound r))
    ∧ (∀ (cfg : Config) (fs : FS) (g : PPath → Bool → List PPath)
        (pat : PPath) (rcv : Bool),
        find_files cfg fs g pat rcv (some (PPath.mk false []))
          = Except.error (Err.rootNotFound (PPath.mk false []))) := by
  refine ⟨?_, ?_, ?_, ?_⟩
  · intro cfg fs g pat rcv
    rfl
  · intro cfg fs g pat rcv r hs ht hr
    have hpj : (pjoin cfg.sourcePath r).absolute = true := by
      simp [pjoin, hr, hs]
    have hpt : ptruthy (pjoin cfg.sourcePath r) = true := by
      simp [ptruthy, hpj]
    simp [find_files, ht, hr, hpj, hpt, pisabs]
  · intro cfg fs g pat rcv r hr hne
    simp [find_files, pisabs, hr, hne]
  · intro cfg fs g pat rcv
    simp [find_files, ptruthy, pisabs, pexists, resolve, resolveFuel]

/-- Witness for the amended C7: one closed instance of the nonempty
relative anchoring and one of the missing absolute root. -/
theorem claim_C7_amended_witness :
    (find_files
        (Config.mk (some "1") none (PPath.mk true ["p"]) (PPath.mk true ["s"])
          (PPath.mk true ["o"]))
        [((PPath.mk true ["s"]), Node.dir)] (fun _ _ => [])
        (PPath.mk false ["x"]) true (some (PPath.mk false ["sub"]))
      = find_files
        (Config.mk (some "1") none (PPath.mk true ["p"]) (PPath.mk true ["s"])
          (PPath.mk true ["o"]))
        [((PPath.mk true ["s"]), Node.dir)] (fun _ _ => [])
        (PPath.mk false ["x"]) true (some (PPath.mk true ["s", "sub"])))
    ∧ find_files
        (Config.mk (some "1") none (PPath.mk true ["p"]) (PPath.mk true ["s"])
          (PPath.mk true ["o"]))
        [((PPath.mk true ["s"]), Node.dir)] (fun _ _ => [])
        (PPath.mk false ["x"]) true (some (PPath.mk true ["zz"]))
      = Except.error (Err.rootNotFound (PPath.mk true ["zz"])) :=
  ⟨claim_C7_amended.2.1 _ _ _ _ _ _ rfl rfl rfl,
   claim_C7_amended.2.2.1 _ _ _ _ _ _ rfl rfl⟩

theorem fsget_set_self (fs : FS) (p : PPath) (v : Node) :
    FS.get (FS.set fs p v) p = some v := by
  simp [FS.get, FS.set, List.find?]

theorem find?_key_filter (fs : FS) (p q : PPath) (h : q ≠ p) :
    (fs.filter (fun e => !(e.1 == p))).find? (fun e => e.1 == q)
      = fs.find? (fun e => e.1 == q) := by
  induction fs with
  | nil => rfl
  | cons a rest ih =>
    by_cases hap : a.1 = p
    · have h1 : (a.1 == p) = true := by simp [hap]
      have h2 : (a.1 == q) = false := by simp [hap]; intro hc; exact h hc.symm
      simp [List.filter, h1, List.find?, h2, ih]
    · have h1 : (a.1 == p) = false := by simp [hap]
      cases haq : (a.1 == q) with
      | true => simp [List.filter, h1, List.find?, haq]
      | false => simp [List.filter, h1, List.find?, haq, ih]

theorem fsget_set_ne (fs : FS) (p : PPath) (v : Node) (q : PPath) (h : q ≠ p) :
    FS.get (FS.set fs p v) q = FS.get fs q := by
  have hps : (p == q) = false := by simp; intro hc; exact h hc.symm
  simp [FS.get, FS.set, List.find?, hps, find?_key_filter fs p q h]

theorem fsget_del_self (fs : FS) (p : PPath) : FS.get (FS.del fs p) p = none := by
  simp only [FS.get, FS.del]
  rw [Option.map_eq_none', List.find?_eq_none]
  intro e he
  rw [List.mem_filter] at he
  simpa using he.2

theorem resolve_get_file (fs : FS) (p : PPath) (c m : Nat)
    (ha : p.absolute = true) (h : fs.get p = some (Node.file c m)) :
    resolve fs p = some (p, Node.file c m) := by
  simp [resolve, resolveFuel, ha, h]

theorem resolve_get_none (fs : FS) (p : PPath) (h : fs.get p = none) :
    resolve fs p = none := by
  simp only [resolve, resolveFuel, h]
  split <;> rfl

/-- Claim C1, counterexample: one entry whose relative path is the absolute
path `/a/f` of an existing file.  `install_files` does not fail with the
PathError the claim requires: `os.path.join` makes both source and
destination equal to `/a/f` itself, the pre-existing destination (the
source file) is removed, and the subsequent copy fails with a
file-not-found error — the run errors with `ioError`, not `pathError`, and
the source file has been destroyed (it is gone from the resulting state). -/
theorem claim_C1_counterexample :
    install_files false
      (Config.mk (some "1") (some "1") (PPath.mk true ["p"]) (PPath.mk true ["s"])
        (PPath.mk true ["out"]))
      [((PPath.mk true ["a"]), Node.dir),
        ((PPath.mk true ["a", "f"]), Node.file 7 420),
        ((PPath.mk true ["out"]), Node.dir)]
      [(PPath.mk true ["sroot"], PPath.mk true ["a", "f"])] none false false
      = ([((PPath.mk true ["a"]), Node.dir), ((PPath.mk true ["out"]), Node.dir)],
          some Err.ioError)
    ∧ (some Err.ioError ≠ some Err.pathError) := by
  constructor
  · rfl
  · decide

/-- Claim C1, amended: `install_files` performs no absolute-path check and
raises no PathError.  For an entry whose relative path `rel` is absolute,
`os.path.join` yields `rel` itself for both source and destination; on a
POSIX platform with `symlink = false`, when `rel` names an existing file
(whose parent directory exists), the existing destination — which IS the
source — is first removed and the copy then fails with a file-not-found
error, so the batch stops at the offending entry with the source file
destroyed; entries after the offending one are never attempted (the result
does not depend on them), while entries before it were installed by the
earlier loop iterations. -/
theorem claim_C1_amended (cfg : Config) (fs : FS) (root rel : PPath)
    (rest : List (PPath × PPath)) (c m : Nat)
    (habs : rel.absolute = true)
    (hfile : FS.get fs rel = some (Node.file c m))
    (hdir : pexists fs (dirname rel) = true) :
    pjoin root rel = rel
    ∧ install_files false cfg fs ((root, rel) :: rest) none false false
        = (FS.del fs rel, some Err.ioError)
    ∧ FS.get (FS.del fs rel) rel = none := by
  have hpj : ∀ a : PPath, pjoin a rel = rel := by
    intro a; simp [pjoin, habs]
  have hres : resolve fs rel = some (rel, Node.file c m) :=
    resolve_get_file fs rel c m habs hfile
  have hex : pexists fs rel = true := by simp [pexists, hres]
  have hdel : FS.get (FS.del fs rel) rel = none := fsget_del_self fs rel
  have hresd : resolve (FS.del fs rel) rel = none := resolve_get_none _ _ hdel
  have hcopy : copy_file false fs rel rel false false
      = (FS.del fs rel, some Err.ioError) := by
    unfold copy_file
    rw [hdir]
    simp only [Bool.false_eq_true, if_false, if_true, Bool.true_eq_false]
    rw [hex]
    simp only [if_true, removeOp, hfile]
    simp only [copy2Op, samefile, hresd]
    rfl
  refine ⟨hpj root, ?_, hdel⟩
  unfold install_files installLoop
  simp only [hpj, hcopy]

/-- Witness for the amended C1 at the concrete input of the
counterexample. -/
theorem claim_C1_amended_witness :
    pjoin (PPath.mk true ["sroot"]) (PPath.mk true ["a", "f"]) = PPath.mk true ["a", "f"]
    ∧ install_files false
        (Config.mk (some "1") (some "1") (PPath.mk true ["p"]) (PPath.mk true ["s"])
          (PPath.mk true ["out"]))
        [((PPath.mk true ["a"]), Node.dir),
          ((PPath.mk true ["a", "f"]), Node.file 7 420),
          ((PPath.mk true ["out"]), Node.dir)]
        ((PPath.mk true ["sroot"], PPath.mk true ["a", "f"])
          :: [(PPath.mk true ["x"], PPath.mk false ["y"])]) none false false
        = (FS.del
            [((PPath.mk true ["a"]), Node.dir),
              ((PPath.mk true ["a", "f"]), Node.file 7 420),
              ((PPath.mk true ["out"]), Node.dir)] (PPath.mk true ["a", "f"]),
            some Err.ioError)
    ∧ FS.get (FS.del
        [((PPath.mk true ["a"]), Node.dir),
          ((PPath.mk true ["a", "f"]), Node.file 7 420),
          ((PPath.mk true ["out"]), Node.dir)] (PPath.mk true ["a", "f"]))
        (PPath.mk true ["a", "f"]) = none :=
  claim_C1_amended _ _ _ _ _ 7 420 rfl rfl rfl

/-- Claim C8: on a POSIX platform (`windows = false`), every successful
`_copy_file` with `executable = true` ends by setting the mode of the
resolved destination to its prior mode (the mode `fs2` holds right after
the remove and copy/symlink steps) OR-ed with the three execute bits
`0o111`; every permission bit that was set before the chmod remains set
after it — the operation only ever adds bits. -/
theorem claim_C8 (fs : FS) (src dst : PPath) (symlinkF : Bool) (fs2' : FS)
    (h : copy_file false fs src dst true symlinkF = (fs2', none)) :
    ∃ (fs2 : FS) (q : PPath) (c m : Nat),
      resolve fs2 dst = some (q, Node.file c m)
      ∧ statMode fs2 dst = some m
      ∧ fs2' = FS.set fs2 q (Node.file c (Nat.lor m 73))
      ∧ FS.get fs2' q = some (Node.file c (Nat.lor m 73))
      ∧ ∀ k, m.testBit k = true → (Nat.lor m 73).testBit k = true := by
  unfold copy_file at h
  simp only [Bool.false_eq_true, if_false, if_true] at h
  generalize (if pexists fs (dirname dst) = true then fs
    else makedirsOp fs (dirname dst)) = fs0 at h
  rcases hrm : (if pexists fs0 dst = true then removeOp fs0 dst else (fs0, none))
    with ⟨fs1, e1⟩
  rw [hrm] at h
  cases e1 with
  | some e => simp at h
  | none =>
    simp only [] at h
    rcases hcr : (if symlinkF = true then symlinkOp fs1 src dst
      else copy2Op fs1 src dst) with ⟨fs2, e2⟩
    rw [hcr] at h
    cases e2 with
    | some e => simp at h
    | none =>
      simp only [] at h
      cases hstat : statMode fs2 dst with
      | none => rw [hstat] at h; simp at h
      | some m =>
        rw [hstat] at h
        unfold chmodOp at h
        cases hres : resolve fs2 dst with
        | none => rw [hres] at h; simp at h
        | some pr =>
          obtain ⟨q, nd⟩ := pr
          cases nd with
          | file c mm =>
            rw [hres] at h
            simp only [Prod.mk.injEq] at h
            have hmm : mm = m := by
              have hst2 : statMode fs2 dst = some mm := by
                simp [statMode, hres]
              rw [hst2] at hstat
              exact Option.some.inj hstat
            subst hmm
            refine ⟨fs2, q, c, mm, hres, by simp [statMode, hres], h.1.symm, ?_, ?_⟩
            · rw [← h.1]; exact fsget_set_self fs2 q _
            · intro k hk
              show (mm ||| 73).testBit k = true
              rw [Nat.testBit_lor, hk, Bool.true_or]
          | dir => rw [hres] at h; simp at h
          | symlink t => rw [hres] at h; simp at h

/-- Witness for C8: a successful copy install of `/src/f` (mode `0o644`)
to `/out/f` with `executable = true`; the destination mode becomes
`0o755 = Nat.lor 420 73`. -/
theorem claim_C8_witness :
    ∃ (fs2 : FS) (q : PPath) (c m : Nat),
      resolve fs2 (PPath.mk true ["out", "f"]) = some (q, Node.file c m)
      ∧ statMode fs2 (PPath.mk true ["out", "f"]) = some m
      ∧ [((PPath.mk true ["out", "f"]), Node.file 9 493),
          ((PPath.mk true ["src"]), Node.dir),
          ((PPath.mk true ["src", "f"]), Node.file 9 420),
          ((PPath.mk true ["out"]), Node.dir)]
        = FS.set fs2 q (Node.file c (Nat.lor m 73))
      ∧ FS.get [((PPath.mk true ["out", "f"]), Node.file 9 493),
          ((PPath.mk true ["src"]), Node.dir),
          ((PPath.mk true ["src", "f"]), Node.file 9 420),
          ((PPath.mk true ["out"]), Node.dir)] q
        = some (Node.file c (Nat.lor m 73))
      ∧ ∀ k, m.testBit k = true → (Nat.lor m 73).testBit k = true :=
  claim_C8
    [((PPath.mk true ["src"]), Node.dir),
      ((PPath.mk true ["src", "f"]), Node.file 9 420),
      ((PPath.mk true ["out"]), Node.dir)]
    (PPath.mk true ["src", "f"]) (PPath.mk true ["out", "f"]) false _ rfl

/-- Claim C10: on a POSIX platform, installing with `symlink = true` and
`executable = true` first creates the symlink at the destination and then
runs `os.chmod` on the destination path; `chmod` follows the fresh link, so
the execute bits are OR-ed into the mode of the SOURCE file itself: the
final state stores the source file with mode `m OR 0o111` while the
destination is just a symlink — installation mutates the permissions of
the source tree. -/
theorem claim_C10 (fs : FS) (src dst : PPath) (c m : Nat)
    (hsrc : FS.get fs src = some (Node.file c m))
    (hsa : src.absolute = true) (hda : dst.absolute = true)
    (hdst : FS.get fs dst = none)
    (hdir : pexists fs (dirname dst) = true) :
    copy_file false fs src dst true true
      = (FS.set (FS.set fs dst (Node.symlink src)) src
          (Node.file c (Nat.lor m 73)), none)
    ∧ FS.get (FS.set (FS.set fs dst (Node.symlink src)) src
        (Node.file c (Nat.lor m 73))) src = some (Node.file c (Nat.lor m 73))
    ∧ FS.get (FS.set (FS.set fs dst (Node.symlink src)) src
        (Node.file c (Nat.lor m 73))) dst = some (Node.symlink src) := by
  have hne : src ≠ dst := by
    intro he; rw [he, hdst] at hsrc; exact Option.noConfusion hsrc
  have hdne : dst ≠ src := fun he => hne he.symm
  have hrd : resolve fs dst = none := resolve_get_none fs dst hdst
  have hexd : pexists fs dst = false := by simp [pexists, hrd]
  set fs1 := FS.set fs dst (Node.symlink src) with hfs1
  have hsym : symlinkOp fs src dst = (fs1, none) := by
    simp [symlinkOp, hdst, hfs1]
  have hget1d : FS.get fs1 dst = some (Node.symlink src) := fsget_set_self _ _ _
  have hget1s : FS.get fs1 src = some (Node.file c m) := by
    rw [hfs1, fsget_set_ne fs dst _ src hne]; exact hsrc
  have hlen : fs1.length = (fs.filter (fun e => !(e.1 == dst))).length + 1 := by
    simp [hfs1, FS.set]
  have hres1 : resolve fs1 dst = some (src, Node.file c m) := by
    unfold resolve
    rw [hlen]
    simp [resolveFuel, hda, hget1d, hsa, hget1s]
  have hstat : statMode fs1 dst = some m := by simp [statMode, hres1]
  have hchmod : chmodOp fs1 dst (Nat.lor m 73)
      = (FS.set fs1 src (Node.file c (Nat.lor m 73)), none) := by
    simp [chmodOp, hres1]
  refine ⟨?_, fsget_set_self _ _ _, ?_⟩
  · unfold copy_file
    simp only [hdir, hexd, if_true, if_false, Bool.false_eq_true,
      Bool.true_eq_false, hsym, hstat, hchmod]
  · rw [fsget_set_ne _ _ _ _ hdne]
    exact hget1d

/-- Witness for C10: symlink-install of `/src/f` (mode `0o644`) to
`/out/f` with the execute bits requested; the SOURCE file ends with mode
`0o755` and the destination is a symlink to it. -/
theorem claim_C10_witness :
    copy_file false
      [((PPath.mk true ["src"]), Node.dir),
        ((PPath.mk true ["src", "f"]), Node.file 9 420),
        ((PPath.mk true ["out"]), Node.dir)]
      (PPath.mk true ["src", "f"]) (PPath.mk true ["out", "f"]) true true
      = (FS.set (FS.set
          [((PPath.mk true ["src"]), Node.dir),
            ((PPath.mk true ["src", "f"]), Node.file 9 420),
            ((PPath.mk true ["out"]), Node.dir)]
          (PPath.mk true ["out", "f"]) (Node.symlink (PPath.mk true ["src", "f"])))
          (PPath.mk true ["src", "f"]) (Node.file 9 (Nat.lor 420 73)), none)
    ∧ FS.get (FS.set (FS.set
        [((PPath.mk true ["src"]), Node.dir),
          ((PPath.mk true ["src", "f"]), Node.file 9 420),
          ((PPath.mk true ["out"]), Node.dir)]
        (PPath.mk true ["out", "f"]) (Node.symlink (PPath.mk true ["src", "f"])))
        (PPath.mk true ["src", "f"]) (Node.file 9 (Nat.lor 420 73)))
        (PPath.mk true ["src", "f"]) = some (Node.file 9 (Nat.lor 420 73))
    ∧ FS.get (FS.set (FS.set
        [((PPath.mk true ["src"]), Node.dir),
          ((PPath.mk true ["src", "f"]), Node.file 9 420),
          ((PPath.mk true ["out"]), Node.dir)]
        (PPath.mk true ["out", "f"]) (Node.symlink (PPath.mk true ["src", "f"])))
        (PPath.mk true ["src", "f"]) (Node.file 9 (Nat.lor 420 73)))
        (PPath.mk true ["out", "f"])
        = some (Node.symlink (PPath.mk true ["src", "f"])) :=
  claim_C10 _ _ _ 9 420 rfl rfl rfl rfl rfl

theorem pyTruthy_true (v : PyVal) : pyTruthy v = true := by
  cases v <;> rfl

theorem extract_function_false_ne_ok_none (d : List Stmt) (n : String) :
    extract_function d n false ≠ Except.ok none := by
  intro h
  unfold extract_function at h
  split at h
  · simp at h
  · split at h
    · simp at h
    · split at h
      · simp at h
      · split at h <;> simp at h

theorem evalExpr_error_nameError (g l : NS) (b : List String) (ex : Expr) (e : Err)
    (h : evalExpr g l b ex = Except.error e) : ∃ x, e = Err.nameError x := by
  cases ex with
  | const => simp [evalExpr] at h
  | name x =>
    simp only [evalExpr] at h
    repeat' split at h
    all_goals first
      | exact ⟨x, (Except.error.inj h).symm⟩
      | simp at h

theorem execStmts_error_nameError (g : NS) (b : List String) :
    ∀ (ss : List Stmt) (l : NS) (e : Err),
      execStmts g l b ss = Except.error e → ∃ x, e = Err.nameError x := by
  intro ss
  induction ss with
  | nil => intro l e h; simp [execStmts] at h
  | cons s rest ih =>
    intro l e h
    cases s with
    | funcDef nm bd => exact ih _ _ h
    | assign t v =>
      unfold execStmts at h
      split at h
      · rename_i er heq
        simp only [Except.error.injEq] at h
        subst h
        exact evalExpr_error_nameError g l b v _ heq
      · exact ih _ _ h
    | importStmt nm => exact ih _ _ h
    | exprStmt v =>
      unfold execStmts at h
      split at h
      · rename_i er heq
        simp only [Except.error.injEq] at h
        subst h
        exact evalExpr_error_nameError g l b v _ heq
      · exact ih _ _ h

theorem callHandle_error_shape (b : List String) (h : Handle) (e : Err)
    (hc : callHandle b h = Except.error e) :
    e = Err.notCallable ∨ ∃ x, e = Err.nameError x := by
  unfold callHandle at hc
  split at hc
  · exact Or.inr (execStmts_error_nameError _ _ _ _ _ hc)
  · simp only [Except.error.injEq] at hc
    exact Or.inl hc.symm

theorem extract_error_shape (d : List Stmt) (n : String) (o : Bool) (e : Err)
    (h : extract_function d n o = Except.error e) :
    e = Err.noFunction n ∨ e = Err.keyError ∨ ∃ x, e = Err.nameError x := by
  unfold extract_function at h
  split at h
  · split at h
    · simp at h
    · simp only [Except.error.injEq] at h
      exact Or.inl h.symm
  · split at h
    · simp only [Except.error.injEq] at h
      exact Or.inr (Or.inl h.symm)
    · split at h
      · rename_i er heq
        simp only [Except.error.injEq] at h
        subst h
        exact Or.inr (Or.inr (execStmts_error_nameError _ _ _ _ _ heq))
      · split at h
        · simp only [Except.error.injEq] at h
          exact Or.inr (Or.inl h.symm)
        · simp at h

theorem installPhase_not_install (cfg : Config) (d : List Stmt) (b : List String)
    (h : is_install cfg = false) : installPhase cfg d b = ([], none) := by
  simp [installPhase, h]

theorem installPhase_events (cfg : Config) (d : List Stmt) (b : List String) :
    ∀ ev ∈ (installPhase cfg d b).1, ev.isInstallEv = true := by
  unfold installPhase
  split
  · split
    · simp [Event.isInstallEv]
    · intro ev hev
      simp at hev
      rcases hev with rfl | rfl <;> rfl
    · split
      · split <;> intro ev hev <;> simp at hev <;>
          (try rcases hev with rfl | rfl) <;> (try subst hev) <;> rfl
      · intro ev hev
        simp at hev
        subst hev
        rfl
  · simp

theorem installPhase_flag (cfg : Config) (d : List Stmt) (b : List String) :
    ∀ oi, Event.extractInstall oi ∈ (installPhase cfg d b).1 → oi = false := by
  intro oi hmem
  have := installPhase_events cfg d b _ hmem
  unfold installPhase at hmem
  split at hmem
  · split at hmem
    · simp at hmem; exact hmem
    · simp at hmem; exact hmem
    · split at hmem
      · split at hmem <;> simp at hmem <;> exact hmem
      · simp at hmem; exact hmem
  · simp at hmem

theorem installPhase_invokeInstall (cfg : Config) (d : List Stmt) (b : List String)
    (h : Event.invokeInstall ∈ (installPhase cfg d b).1) : is_install cfg = true := by
  cases hi : is_install cfg with
  | true => rfl
  | false =>
    rw [installPhase_not_install cfg d b hi] at h
    simp at h

theorem installPhase_no_noInstallFunc (cfg : Config) (d : List Stmt) (b : List String) :
    (installPhase cfg d b).2 ≠ some Err.noInstallFunc := by
  unfold installPhase
  split
  · split
    · rename_i e heq
      rcases extract_error_shape d "install" false e heq with h1 | h1 | ⟨x, h1⟩ <;>
        subst h1 <;> simp
    · rename_i heq
      exact absurd heq (extract_function_false_ne_ok_none d "install")
    · rename_i hh heq
      split
      · split
        · rename_i e heq2
          rcases callHandle_error_shape b hh e heq2 with h1 | ⟨x, h1⟩ <;>
            subst h1 <;> simp
        · simp
      · rename_i hpt
        exact absurd (pyTruthy_true hh.fn) hpt
  · simp

theorem buildEv_not_installEv (ev : Event) (h : ev.isBuildEv = true) :
    ev.isInstallEv = false := by
  cases ev <;> simp_all [Event.isBuildEv, Event.isInstallEv]

/-- Claim C9: the branch of `execute` that would raise the
"No install function found" error is unreachable: `extract_function` with
`optional = false` either fails or returns a function object, and a
function object is always truthy, so the falsy check on `install_func`
never fires.  No run of `execute`, whatever the configuration, filesystem,
descriptor and builtins, ends with the `noInstallFunc` error. -/
theorem claim_C9 (cfg : Config) (fs : FS) (d : List Stmt) (b : List String) :
    (execute cfg fs d b).2 ≠ some Err.noInstallFunc := by
  unfold execute
  split
  · simp
  · split
    · simp
    · split
      · simp
      · split
        · rename_i e heq
          rcases extract_error_shape d "build" true e heq with h1 | h1 | ⟨x, h1⟩ <;>
            subst h1 <;> simp
        · simpa using installPhase_no_noInstallFunc cfg d b
        · rename_i hh heq
          split
          · split
            · rename_i e2 heq2
              rcases callHandle_error_shape b hh e2 heq2 with h1 | ⟨x, h1⟩ <;>
                subst h1 <;> simp
            · simpa using installPhase_no_noInstallFunc cfg d b
          · simpa using installPhase_no_noInstallFunc cfg d b

/-- Witness instance of C9 at a concrete run. -/
theorem claim_C9_witness :
    (execute
      (Config.mk (some "1") (some "1") (PPath.mk true ["p"]) (PPath.mk true ["s"])
        (PPath.mk true ["o"]))
      [((PPath.mk true ["p"]), Node.file 0 420)] [] []).2
      ≠ some Err.noInstallFunc :=
  claim_C9 _ _ _ _

theorem execTraceConjOfPre (cfg : Config) (d : List Stmt) (b : List String)
    (t pre : List Event) (ht : t = pre)
    (hpre : ∀ ev ∈ pre, ev.isBuildEv = true)
    (hpreB : ∀ ob, Event.extractBuild ob ∈ pre → ob = true)
    (hpreI : Event.invokeBuild ∈ pre →
        ∃ hb, extract_function d "build" true = Except.ok (some hb)) :
    (∀ ob, Event.extractBuild ob ∈ t → ob = true)
    ∧ (∀ oi, Event.extractInstall oi ∈ t → oi = false)
    ∧ (is_install cfg = false → ∀ ev ∈ t, ev.isInstallEv = false)
    ∧ (Event.invokeInstall ∈ t → is_install cfg = true)
    ∧ (Event.invokeBuild ∈ t →
        ∃ hb, extract_function d "build" true = Except.ok (some hb))
    ∧ (∃ tb ti, t = tb ++ ti
        ∧ (∀ ev ∈ tb, ev.isBuildEv = true)
        ∧ (∀ ev ∈ ti, ev.isInstallEv = true)) := by
  subst ht
  refine ⟨hpreB, ?_, ?_, ?_, hpreI,
    ⟨t, [], (List.append_nil t).symm, hpre, by simp⟩⟩
  · intro oi hoi
    have := hpre _ hoi
    simp [Event.isBuildEv] at this
  · intro _ ev hev
    exact buildEv_not_installEv ev (hpre ev hev)
  · intro hinv
    have := hpre _ hinv
    simp [Event.isBuildEv] at this

theorem execTraceConjOfFull (cfg : Config) (d : List Stmt) (b : List String)
    (t pre : List Event) (ht : t = pre ++ (installPhase cfg d b).1)
    (hpre : ∀ ev ∈ pre, ev.isBuildEv = true)
    (hpreB : ∀ ob, Event.extractBuild ob ∈ pre → ob = true)
    (hpreI : Event.invokeBuild ∈ pre →
        ∃ hb, extract_function d "build" true = Except.ok (some hb)) :
    (∀ ob, Event.extractBuild ob ∈ t → ob = true)
    ∧ (∀ oi, Event.extractInstall oi ∈ t → oi = false)
    ∧ (is_install cfg = false → ∀ ev ∈ t, ev.isInstallEv = false)
    ∧ (Event.invokeInstall ∈ t → is_install cfg = true)
    ∧ (Event.invokeBuild ∈ t →
        ∃ hb, extract_function d "build" true = Except.ok (some hb))
    ∧ (∃ tb ti, t = tb ++ ti
        ∧ (∀ ev ∈ tb, ev.isBuildEv = true)
        ∧ (∀ ev ∈ ti, ev.isInstallEv = true)) := by
  subst ht
  refine ⟨?_, ?_, ?_, ?_, ?_,
    ⟨pre, (installPhase cfg d b).1, rfl, hpre, installPhase_events cfg d b⟩⟩
  · intro ob hob
    rcases List.mem_append.mp hob with hm | hm
    · exact hpreB ob hm
    · have := installPhase_events cfg d b _ hm
      simp [Event.isInstallEv] at this
  · intro oi hoi
    rcases List.mem_append.mp hoi with hm | hm
    · have := hpre _ hm
      simp [Event.isBuildEv] at this
    · exact installPhase_flag cfg d b oi hm
  · intro hnot ev hev
    rw [installPhase_not_install cfg d b hnot] at hev
    simp only [List.append_nil] at hev
    exact buildEv_not_installEv ev (hpre ev hev)
  · intro hinv
    rcases List.mem_append.mp hinv with hm | hm
    · have := hpre _ hm
      simp [Event.isBuildEv] at this
    · exact installPhase_invokeInstall cfg d b hm
  · intro hinv
    rcases List.mem_append.mp hinv with hm | hm
    · exact hpreI hm
    · have := installPhase_events cfg d b _ hm
      simp [Event.isInstallEv] at this

/-- Claim C5: in every run of `execute`, the build routine is extracted
only with `optional = true` and is invoked (with no arguments) only when
extraction returned a present routine; the install routine is extracted
only with `optional = false` and install events happen only when
install-mode is active — when install-mode is inactive, no install event
occurs at all; and the trace always splits into build-phase events
followed by install-phase events, so the build step precedes the install
step. -/
theorem claim_C5 (cfg : Config) (fs : FS) (d : List Stmt) (b : List String)
    (t : List Event) (e : Option Err)
    (h : execute cfg fs d b = (t, e)) :
    (∀ ob, Event.extractBuild ob ∈ t → ob = true)
    ∧ (∀ oi, Event.extractInstall oi ∈ t → oi = false)
    ∧ (is_install cfg = false → ∀ ev ∈ t, ev.isInstallEv = false)
    ∧ (Event.invokeInstall ∈ t → is_install cfg = true)
    ∧ (Event.invokeBuild ∈ t →
        ∃ hb, extract_function d "build" true = Except.ok (some hb))
    ∧ (∃ tb ti, t = tb ++ ti
        ∧ (∀ ev ∈ tb, ev.isBuildEv = true)
        ∧ (∀ ev ∈ ti, ev.isInstallEv = true)) := by
  unfold execute at h
  split at h
  · injection h with h1 h2
    exact execTraceConjOfPre cfg d b t [] h1.symm (by simp) (by simp) (by simp)
  · split at h
    · injection h with h1 h2
      exact execTraceConjOfPre cfg d b t [] h1.symm (by simp) (by simp) (by simp)
    · split at h
      · injection h with h1 h2
        exact execTraceConjOfPre cfg d b t [] h1.symm (by simp) (by simp) (by simp)
      · split at h
        · injection h with h1 h2
          exact execTraceConjOfPre cfg d b t [Event.extractBuild true] h1.symm
            (by simp [Event.isBuildEv]) (by simp) (by simp)
        · injection h with h1 h2
          exact execTraceConjOfFull cfg d b t [Event.extractBuild true] h1.symm
            (by simp [Event.isBuildEv]) (by simp) (by simp)
        · rename_i hh heq
          split at h
          · split at h
            · injection h with h1 h2
              exact execTraceConjOfPre cfg d b t
                [Event.extractBuild true, Event.invokeBuild] h1.symm
                (by intro ev hev; simp at hev; rcases hev with rfl | rfl <;> rfl)
                (by intro ob hob; simp at hob; exact hob) (fun _ => ⟨hh, heq⟩)
            · injection h with h1 h2
              exact execTraceConjOfFull cfg d b t
                [Event.extractBuild true, Event.invokeBuild] h1.symm
                (by intro ev hev; simp at hev; rcases hev with rfl | rfl <;> rfl)
                (by intro ob hob; simp at hob; exact hob) (fun _ => ⟨hh, heq⟩)
          · injection h with h1 h2
            exact execTraceConjOfFull cfg d b t [Event.extractBuild true] h1.symm
              (by simp [Event.isBuildEv]) (by simp) (by simp)

theorem bfs_build_install_module :
    bfs [Stmt.funcDef "build" [Stmt.exprStmt Expr.const],
        Stmt.funcDef "install" [Stmt.exprStmt Expr.const]]
      = [Stmt.funcDef "build" [Stmt.exprStmt Expr.const],
         Stmt.funcDef "install" [Stmt.exprStmt Expr.const],
         Stmt.exprStmt Expr.const, Stmt.exprStmt Expr.const] := by
  simp [bfs, sizeL, bfsFuel, Stmt.children]

theorem extract_build_concrete :
    extract_function
        [Stmt.funcDef "build" [Stmt.exprStmt Expr.const],
          Stmt.funcDef "install" [Stmt.exprStmt Expr.const]] "build" true
      = Except.ok (some (Handle.mk
          [("build", PyVal.func "build" [Stmt.exprStmt Expr.const])]
          (PyVal.func "build" [Stmt.exprStmt Expr.const]))) := by
  rw [extract_function.eq_def, bfs_build_install_module]
  simp [isNamedDef, List.find?, stmtFuncParts, execModule, execStmts,
    nsSet, nsLookup]

theorem extract_install_concrete :
    extract_function
        [Stmt.funcDef "build" [Stmt.exprStmt Expr.const],
          Stmt.funcDef "install" [Stmt.exprStmt Expr.const]] "install" false
      = Except.ok (some (Handle.mk
          [("install", PyVal.func "install" [Stmt.exprStmt Expr.const])]
          (PyVal.func "install" [Stmt.exprStmt Expr.const]))) := by
  rw [extract_function.eq_def, bfs_build_install_module]
  simp [isNamedDef, List.find?, stmtFuncParts, execModule, execStmts,
    nsSet, nsLookup]

theorem execute_concrete_run :
    execute
      (Config.mk (some "1") (some "1") (PPath.mk true ["p"]) (PPath.mk true ["s"])
        (PPath.mk true ["o"]))
      [((PPath.mk true ["p"]), Node.file 0 420)]
      [Stmt.funcDef "build" [Stmt.exprStmt Expr.const],
        Stmt.funcDef "install" [Stmt.exprStmt Expr.const]] []
      = ([Event.extractBuild true, Event.invokeBuild, Event.extractInstall false,
          Event.invokeInstall], none) := by
  simp [execute, installPhase, extract_build_concrete, extract_install_concrete,
    is_build, is_install, strTruthy, pexists, resolve, resolveFuel, FS.get,
    List.find?, pyTruthy, callHandle, execStmts, evalExpr]

/-- Witness for C5 at a concrete run: build environment active, install
mode active, descriptor defining both `build` and `install`; the trace is
extract-build, invoke-build, extract-install, invoke-install, in that
order. -/
theorem claim_C5_witness :
    (∀ ob, Event.extractBuild ob ∈
        [Event.extractBuild true, Event.invokeBuild, Event.extractInstall false,
          Event.invokeInstall] → ob = true)
    ∧ (∀ oi, Event.extractInstall oi ∈
        [Event.extractBuild true, Event.invokeBuild, Event.extractInstall false,
          Event.invokeInstall] → oi = false)
    ∧ (is_install (Config.mk (some "1") (some "1") (PPath.mk true ["p"])
          (PPath.mk true ["s"]) (PPath.mk true ["o"])) = false →
        ∀ ev ∈ [Event.extractBuild true, Event.invokeBuild,
          Event.extractInstall false, Event.invokeInstall], ev.isInstallEv = false)
    ∧ (Event.invokeInstall ∈
        [Event.extractBuild true, Event.invokeBuild, Event.extractInstall false,
          Event.invokeInstall] →
        is_install (Config.mk (some "1") (some "1") (PPath.mk true ["p"])
          (PPath.mk true ["s"]) (PPath.mk true ["o"])) = true)
    ∧ (Event.invokeBuild ∈
        [Event.extractBuild true, Event.invokeBuild, Event.extractInstall false,
          Event.invokeInstall] →
        ∃ hb, extract_function
          [Stmt.funcDef "build" [Stmt.exprStmt Expr.const],
            Stmt.funcDef "install" [Stmt.exprStmt Expr.const]] "build" true
          = Except.ok (some hb))
    ∧ (∃ tb ti,
        [Event.extractBuild true, Event.invokeBuild, Event.extractInstall false,
          Event.invokeInstall] = tb ++ ti
        ∧ (∀ ev ∈ tb, ev.isBuildEv = true)
        ∧ (∀ ev ∈ ti, ev.isInstallEv = true)) :=
  claim_C5
    (Config.mk (some "1") (some "1") (PPath.mk true ["p"]) (PPath.mk true ["s"])
      (PPath.mk true ["o"]))
    [((PPath.mk true ["p"]), Node.file 0 420)]
    [Stmt.funcDef "build" [Stmt.exprStmt Expr.const],
      Stmt.funcDef "install" [Stmt.exprStmt Expr.const]]
    []
    [Event.extractBuild true, Event.invokeBuild, Event.extractInstall false,
      Event.invokeInstall]
    none
    execute_concrete_run
